import Mathlib

/-!
# Light-client chain access layer (`les/api_backend.go`)

A shallow embedding of the reference resolver, the state materializer and the
protocol parameter evaluator of `LesApiBackend`.

Go results are kept in their Go shape: a `(*T, error)` result is a pair of
options, `none` standing for `nil`, so that a nil header returned with a nil
error is representable.  Every call into a collaborator that is not part of
`api_backend.go` (the light chain, `light.NewState`, the EVM runner factory,
the contract readers, the logger) is recorded in a call trace, so that "which
collaborator was consulted, and on what" is a property of the value returned
by the embedded function.
-/

namespace Les

/-! ## Data model -/

/-- A `common.Hash` value. -/
abbrev CommonHash := Nat

/-- A `common.Address` value. -/
abbrev Address := Nat

/-- The fields of `types.Header` read by `api_backend.go`.  `HashValue` is the
value of the derived `Hash()` method, `Number` the value of `Number.Uint64()`
before truncation, `BaseFee` a nilable `*big.Int`. -/
structure Header where
  ParentHash : CommonHash
  Number : Nat
  GasLimit : Nat
  BaseFee : Option Int
  HashValue : CommonHash
  deriving DecidableEq, Repr

/-- The method `header.Hash()`. -/
def Header.Hash (h : Header) : CommonHash := h.HashValue

/-- The expression `header.Number.Uint64()`. -/
def Header.NumberUint64 (h : Header) : Nat := h.Number % 2 ^ 64

/-- A `types.Block`: a header together with a body (transactions are not
inspected by this file, the body is kept as an opaque tag). -/
structure Block where
  header : Header
  body : Nat
  deriving DecidableEq, Repr

/-- The method `block.NumberU64()`. -/
def Block.NumberU64 (blk : Block) : Nat := blk.header.NumberUint64

/-- The state view `light.NewState(ctx, header, odr)`: a free constructor that
remembers the header it was built for. -/
structure StateDB where
  header : Header
  deriving DecidableEq, Repr

/-- The runner `NewEVMRunner(header, state)`: a free constructor that remembers
the pair it was built from. -/
structure EVMRunner where
  header : Header
  state : StateDB
  deriving DecidableEq, Repr

/-- Modelled from the spec: the `rpc.BlockNumberOrHash` reference type, which is
declared in the `rpc` package; the spec gives it as
`NumberOrHash{Number|Hash, RequireCanonical: bool}`.  Both pointers are
nilable. -/
structure BlockNumberOrHash where
  BlockNumber : Option Int
  BlockHash : Option CommonHash
  RequireCanonical : Bool
  deriving DecidableEq, Repr

/-- Modelled from the spec: the accessor `blockNrOrHash.Number()` of the `rpc`
package, which reports the number when the number pointer is set. -/
def BlockNumberOrHash.getNumber (r : BlockNumberOrHash) : Option Int := r.BlockNumber

/-- Modelled from the spec: the accessor `blockNrOrHash.Hash()` of the `rpc`
package, which reports the hash when the hash pointer is set. -/
def BlockNumberOrHash.getHash (r : BlockNumberOrHash) : Option CommonHash := r.BlockHash

/-- The literal `rpc.BlockNumberOrHash{BlockHash: &hash}`. -/
def BlockNumberOrHash.ofHash (hash : CommonHash) : BlockNumberOrHash :=
  { BlockNumber := none, BlockHash := some hash, RequireCanonical := false }

/-- Go `error` values.  `New text` is `errors.New(text)` (collaborator errors
are of this shape too); `Errorf format ref err` is
`fmt.Errorf(format, ref, err)` for a format with one `%v` and one `%w`. -/
inductive Error where
  | New (text : String)
  | Errorf (format : String) (ref : BlockNumberOrHash) (err : Error)
  deriving DecidableEq, Repr

/-- The function `errors.Unwrap`. -/
def Error.Unwrap : Error → Option Error
  | .New _ => none
  | .Errorf _ _ err => some err

/-- The literal pieces of text an error chain is made of, outermost first: the
format of each wrapping layer and the text of the innermost error. -/
def Error.texts : Error → List String
  | .New text => [text]
  | .Errorf format _ err => format :: err.texts

/-- Whether `needle` occurs at the start of `hay`. -/
def startsWith : List Char → List Char → Bool
  | [], _ => true
  | _ :: _, [] => false
  | a :: as, c :: cs => a == c && startsWith as cs

/-- Whether `needle` occurs somewhere in `hay`. -/
def occursIn (needle : List Char) : List Char → Bool
  | [] => needle.isEmpty
  | c :: cs => startsWith needle (c :: cs) || occursIn needle cs

/-- Whether some literal piece of the error chain contains `phrase`. -/
def Error.mentions (e : Error) (phrase : String) : Bool :=
  e.texts.any (fun t => occursIn phrase.data t.data)

/-- The conversion `uint64(number)` of an `rpc.BlockNumber` (an `int64`). -/
def uint64OfBlockNumber (number : Int) : Nat := (number % 2 ^ 64).toNat

/-! ## Collaborators and the call trace -/

/-- A call into a collaborator, with the arguments it was made on. -/
inductive Call where
  | CurrentHeader
  | GetHeaderByNumberOdr (number : Nat)
  | GetHeaderByHash (hash : CommonHash)
  | GetBlockByHash (hash : CommonHash)
  | GetCanonicalHash (number : Nat)
  | NewState (header : Header)
  | NewEVMRunner (header : Header) (state : StateDB)
  | GetBlockGasLimitOrDefault (vmRunner : EVMRunner)
  | GetBlockGasLimit (vmRunner : EVMRunner)
  | GetBaseFeeForCurrency (vmRunner : EVMRunner) (currency : Option Address) (baseFee : Option Int)
  | GetRealBaseFeeForCurrency (vmRunner : EVMRunner) (currency : Option Address) (baseFee : Option Int)
  | Warn (msg : String) (err : Error)
  deriving DecidableEq, Repr

/-- A computation that returns `result` after making `calls`, in order. -/
structure Traced (α : Type) where
  result : α
  calls : List Call
  deriving DecidableEq, Repr

instance : Monad Traced where
  pure a := ⟨a, []⟩
  bind x f := ⟨(f x.result).result, x.calls ++ (f x.result).calls⟩

/-- The collaborators `LesApiBackend` reaches through `b.eth`, and the package
constants it uses; none of them is defined in `api_backend.go`. -/
structure LesApiBackend where
  /-- The constant `rpc.PendingBlockNumber`. -/
  PendingBlockNumber : Int
  /-- The constant `rpc.LatestBlockNumber`. -/
  LatestBlockNumber : Int
  /-- The constant `params.DefaultGasLimit`. -/
  DefaultGasLimit : Nat
  /-- The chain registry `blockchain.CurrentHeader()`. -/
  currentHeader : Option Header
  /-- The retrieval `blockchain.GetHeaderByNumberOdr(ctx, number)`. -/
  getHeaderByNumberOdr : Nat → Option Header × Option Error
  /-- The lookup `blockchain.GetHeaderByHash(hash)`. -/
  getHeaderByHash : CommonHash → Option Header
  /-- The retrieval `blockchain.GetBlockByHash(ctx, hash)`. -/
  getBlockByHash : CommonHash → Option Block × Option Error
  /-- The chain registry `blockchain.GetCanonicalHash(number)`. -/
  getCanonicalHash : Nat → CommonHash
  /-- The reader `blockchain_parameters.GetBlockGasLimitOrDefault(vmRunner)`. -/
  getBlockGasLimitOrDefault : EVMRunner → Nat
  /-- The reader `blockchain_parameters.GetBlockGasLimit(vmRunner)`. -/
  getBlockGasLimit : EVMRunner → Nat × Option Error
  /-- The reader `gp.GetBaseFeeForCurrency(vmRunner, currency, baseFee)`. -/
  getBaseFeeForCurrency : EVMRunner → Option Address → Option Int → Option Int × Option Error
  /-- The reader `gp.GetRealBaseFeeForCurrency(vmRunner, currency, baseFee)`. -/
  getRealBaseFeeForCurrency : EVMRunner → Option Address → Option Int → Option Int × Option Error

namespace LesApiBackend

/-- Call `b.eth.blockchain.CurrentHeader()`. -/
def CurrentHeader (b : LesApiBackend) : Traced (Option Header) :=
  ⟨b.currentHeader, [Call.CurrentHeader]⟩

/-- Call `b.eth.blockchain.GetHeaderByNumberOdr(ctx, number)`. -/
def GetHeaderByNumberOdr (b : LesApiBackend) (number : Nat) :
    Traced (Option Header × Option Error) :=
  ⟨b.getHeaderByNumberOdr number, [Call.GetHeaderByNumberOdr number]⟩

/-- Call `b.eth.blockchain.GetHeaderByHash(hash)`. -/
def GetHeaderByHash (b : LesApiBackend) (hash : CommonHash) : Traced (Option Header) :=
  ⟨b.getHeaderByHash hash, [Call.GetHeaderByHash hash]⟩

/-- Call `b.eth.blockchain.GetBlockByHash(ctx, hash)`. -/
def GetBlockByHash (b : LesApiBackend) (hash : CommonHash) :
    Traced (Option Block × Option Error) :=
  ⟨b.getBlockByHash hash, [Call.GetBlockByHash hash]⟩

/-- Call `b.eth.blockchain.GetCanonicalHash(number)`. -/
def GetCanonicalHash (b : LesApiBackend) (number : Nat) : Traced CommonHash :=
  ⟨b.getCanonicalHash number, [Call.GetCanonicalHash number]⟩

/-- Call `light.NewState(ctx, header, b.eth.odr)`. -/
def NewState (_b : LesApiBackend) (header : Header) : Traced StateDB :=
  ⟨⟨header⟩, [Call.NewState header]⟩

/-- Call `b.eth.BlockChain().NewEVMRunner(header, state)`. -/
def NewEVMRunner (_b : LesApiBackend) (header : Header) (state : StateDB) : Traced EVMRunner :=
  ⟨⟨header, state⟩, [Call.NewEVMRunner header state]⟩

/-- Call `blockchain_parameters.GetBlockGasLimitOrDefault(vmRunner)`. -/
def GetBlockGasLimitOrDefault (b : LesApiBackend) (vmRunner : EVMRunner) : Traced Nat :=
  ⟨b.getBlockGasLimitOrDefault vmRunner, [Call.GetBlockGasLimitOrDefault vmRunner]⟩

/-- Call `blockchain_parameters.GetBlockGasLimit(vmRunner)`. -/
def ReadBlockGasLimit (b : LesApiBackend) (vmRunner : EVMRunner) : Traced (Nat × Option Error) :=
  ⟨b.getBlockGasLimit vmRunner, [Call.GetBlockGasLimit vmRunner]⟩

/-- Call `gp.GetBaseFeeForCurrency(vmRunner, currencyAddress, baseFee)`. -/
def GetBaseFeeForCurrency (b : LesApiBackend) (vmRunner : EVMRunner)
    (currencyAddress : Option Address) (baseFee : Option Int) :
    Traced (Option Int × Option Error) :=
  ⟨b.getBaseFeeForCurrency vmRunner currencyAddress baseFee,
    [Call.GetBaseFeeForCurrency vmRunner currencyAddress baseFee]⟩

/-- Call `gp.GetRealBaseFeeForCurrency(vmRunner, currencyAddress, baseFee)`. -/
def GetRealBaseFeeForCurrency (b : LesApiBackend) (vmRunner : EVMRunner)
    (currencyAddress : Option Address) (baseFee : Option Int) :
    Traced (Option Int × Option Error) :=
  ⟨b.getRealBaseFeeForCurrency vmRunner currencyAddress baseFee,
    [Call.GetRealBaseFeeForCurrency vmRunner currencyAddress baseFee]⟩

/-- Call `log.Warn(msg, "err", err)`. -/
def Warn (msg : String) (err : Error) : Traced Unit :=
  ⟨(), [Call.Warn msg err]⟩

/-! ## Reference resolver -/

/-- The method `HeaderByNumber` (lines 65-76). -/
def HeaderByNumber (b : LesApiBackend) (number : Int) :
    Traced (Option Header × Option Error) :=
  if number = b.PendingBlockNumber then do
    let header ← b.CurrentHeader
    pure (header, none)
  else if number = b.LatestBlockNumber then do
    let header ← b.CurrentHeader
    pure (header, none)
  else
    b.GetHeaderByNumberOdr (uint64OfBlockNumber number)

/-- The method `HeaderByHash` (lines 98-100). -/
def HeaderByHash (b : LesApiBackend) (hash : CommonHash) :
    Traced (Option Header × Option Error) := do
  let header ← b.GetHeaderByHash hash
  pure (header, none)

/-- The method `HeaderByNumberOrHash` (lines 78-96). -/
def HeaderByNumberOrHash (b : LesApiBackend) (blockNrOrHash : BlockNumberOrHash) :
    Traced (Option Header × Option Error) :=
  match blockNrOrHash.getNumber with
  | some blockNr => b.HeaderByNumber blockNr
  | none =>
    match blockNrOrHash.getHash with
    | some hash => do
      let (header, err) ← b.HeaderByHash hash
      match err with
      | some e => pure (none, some e)
      | none =>
        match header with
        | none => pure (none, some (Error.New "header for hash not found"))
        | some header =>
          if blockNrOrHash.RequireCanonical then do
            let canonical ← b.GetCanonicalHash header.NumberUint64
            if canonical ≠ hash then
              pure (none, some (Error.New "hash is not currently canonical"))
            else
              pure (some header, none)
          else
            pure (some header, none)
    | none => pure (none, some (Error.New "invalid arguments; neither block nor hash specified"))

/-- The method `BlockByHash` (lines 110-112). -/
def BlockByHash (b : LesApiBackend) (hash : CommonHash) :
    Traced (Option Block × Option Error) :=
  b.GetBlockByHash hash

/-- The method `BlockByNumber` (lines 102-108). -/
def BlockByNumber (b : LesApiBackend) (number : Int) :
    Traced (Option Block × Option Error) := do
  let (header, err) ← b.HeaderByNumber number
  match header, err with
  | some header, none => b.BlockByHash header.Hash
  | _, err => pure (none, err)

/-- The method `BlockByNumberOrHash` (lines 114-132). -/
def BlockByNumberOrHash (b : LesApiBackend) (blockNrOrHash : BlockNumberOrHash) :
    Traced (Option Block × Option Error) :=
  match blockNrOrHash.getNumber with
  | some blockNr => b.BlockByNumber blockNr
  | none =>
    match blockNrOrHash.getHash with
    | some hash => do
      let (block, err) ← b.BlockByHash hash
      match err with
      | some e => pure (none, some e)
      | none =>
        match block with
        | none => pure (none, some (Error.New "header found, but block body is missing"))
        | some block =>
          if blockNrOrHash.RequireCanonical then do
            let canonical ← b.GetCanonicalHash block.NumberU64
            if canonical ≠ hash then
              pure (none, some (Error.New "hash is not currently canonical"))
            else
              pure (some block, none)
          else
            pure (some block, none)
    | none => pure (none, some (Error.New "invalid arguments; neither block nor hash specified"))

/-! ## State materializer -/

/-- The method `StateAndHeaderByNumber` (lines 138-147). -/
def StateAndHeaderByNumber (b : LesApiBackend) (number : Int) :
    Traced (Option StateDB × Option Header × Option Error) := do
  let (header, err) ← b.HeaderByNumber number
  match err with
  | some e => pure (none, none, some e)
  | none =>
    match header with
    | none => pure (none, none, some (Error.New "header not found"))
    | some header => do
      let state ← b.NewState header
      pure (some state, some header, none)

/-- The method `StateAndHeaderByNumberOrHash` (lines 149-164). -/
def StateAndHeaderByNumberOrHash (b : LesApiBackend) (blockNrOrHash : BlockNumberOrHash) :
    Traced (Option StateDB × Option Header × Option Error) :=
  match blockNrOrHash.getNumber with
  | some blockNr => b.StateAndHeaderByNumber blockNr
  | none =>
    match blockNrOrHash.getHash with
    | some hash => do
      let header ← b.GetHeaderByHash hash
      match header with
      | none => pure (none, none, some (Error.New "header for hash not found"))
      | some header =>
        if blockNrOrHash.RequireCanonical then do
          let canonical ← b.GetCanonicalHash header.NumberUint64
          if canonical ≠ hash then
            pure (none, none, some (Error.New "hash is not currently canonical"))
          else do
            let state ← b.NewState header
            pure (some state, some header, none)
        else do
          let state ← b.NewState header
          pure (some state, some header, none)
    | none =>
      pure (none, none, some (Error.New "invalid arguments; neither block nor hash specified"))

/-! ## Protocol parameter evaluator -/

/-- The method `GetBlockGasLimit` (lines 288-307).  The result is `none` when
the Go code panics on `header.GasLimit` with a nil `header`; the last branch,
a nil parent or state returned with a nil error, is never taken (see
`StateAndHeaderByNumberOrHash_parent`). -/
def GetBlockGasLimit (b : LesApiBackend) (blockNrOrHash : BlockNumberOrHash) :
    Traced (Option Nat) := do
  let (header, err) ← b.HeaderByNumberOrHash blockNrOrHash
  match err with
  | some e => do
    Warn "Cannot retrieve the header for blockGasLimit" e
    pure (some b.DefaultGasLimit)
  | none =>
    match header with
    | none => pure none
    | some header =>
      if header.GasLimit > 0 then
        pure (some header.GasLimit)
      else do
        let (state, parent, err) ←
          b.StateAndHeaderByNumberOrHash (BlockNumberOrHash.ofHash header.ParentHash)
        match err, parent, state with
        | some e, _, _ => do
          Warn "Cannot create evmCaller to get blockGasLimit" e
          pure (some b.DefaultGasLimit)
        | none, some parent, some state => do
          let vmRunner ← b.NewEVMRunner parent state
          let limit ← b.GetBlockGasLimitOrDefault vmRunner
          pure (some limit)
        | none, _, _ => pure none

/-- The format of the error `GetRealBlockGasLimit` returns when the header
lookup fails. -/
def headerStageFormat : String :=
  "LesApiBackend failed to retrieve header for gas limit %v: %w"

/-- The format of the error `GetRealBlockGasLimit` returns when the parent
state lookup fails. -/
def stateStageFormat : String :=
  "LesApiBackend failed to retrieve state for block gas limit for block %v: %w"

/-- The format of the error `GetRealBlockGasLimit` returns when the contract
read fails. -/
def contractStageFormat : String :=
  "LesApiBackend failed to retrieve block gas limit from blockchain parameters constract for block %v: %w"

/-- The method `GetRealBlockGasLimit` (lines 309-330).  The result is `none`
when the Go code panics on `header.GasLimit` with a nil `header`; the last
branch, a nil parent or state returned with a nil error, is never taken (see
`StateAndHeaderByNumberOrHash_parent`). -/
def GetRealBlockGasLimit (b : LesApiBackend) (blockNrOrHash : BlockNumberOrHash) :
    Traced (Option (Nat × Option Error)) := do
  let (header, err) ← b.HeaderByNumberOrHash blockNrOrHash
  match err with
  | some e => pure (some (0, some (Error.Errorf headerStageFormat blockNrOrHash e)))
  | none =>
    match header with
    | none => pure none
    | some header =>
      if header.GasLimit > 0 then
        pure (some (header.GasLimit, none))
      else do
        let (state, parent, err) ←
          b.StateAndHeaderByNumberOrHash (BlockNumberOrHash.ofHash header.ParentHash)
        match err, parent, state with
        | some e, _, _ =>
          pure (some (0, some (Error.Errorf stateStageFormat blockNrOrHash e)))
        | none, some parent, some state => do
          let vmRunner ← b.NewEVMRunner parent state
          let (limit, err) ← b.ReadBlockGasLimit vmRunner
          match err with
          | some e => pure (some (0, some (Error.Errorf contractStageFormat blockNrOrHash e)))
          | none => pure (some (limit, none))
        | none, _, _ => pure none

/-- The method `GasPriceMinimumForHeader` (lines 356-369), on a non-nil
`header`.  The result is `none` when the runner would be built from a nil
parent. -/
def GasPriceMinimumForHeader (b : LesApiBackend) (currencyAddress : Option Address)
    (header : Header) : Traced (Option (Option Int × Option Error)) :=
  if header.BaseFee ≠ none ∧ currencyAddress = none then
    pure (some (header.BaseFee, none))
  else do
    let (state, parent, err) ←
      b.StateAndHeaderByNumberOrHash (BlockNumberOrHash.ofHash header.ParentHash)
    match err, parent, state with
    | some e, _, _ => pure (some (none, some e))
    | none, some parent, some state => do
      let vmRunner ← b.NewEVMRunner parent state
      let r ← b.GetBaseFeeForCurrency vmRunner currencyAddress header.BaseFee
      pure (some r)
    | none, _, _ => pure none

/-- The method `RealGasPriceMinimumForHeader` (lines 371-384), on a non-nil
`header`.  The result is `none` when the runner would be built from a nil
parent. -/
def RealGasPriceMinimumForHeader (b : LesApiBackend) (currencyAddress : Option Address)
    (header : Header) : Traced (Option (Option Int × Option Error)) :=
  if header.BaseFee ≠ none ∧ currencyAddress = none then
    pure (some (header.BaseFee, none))
  else do
    let (state, parent, err) ←
      b.StateAndHeaderByNumberOrHash (BlockNumberOrHash.ofHash header.ParentHash)
    match err, parent, state with
    | some e, _, _ => pure (some (none, some e))
    | none, some parent, some state => do
      let vmRunner ← b.NewEVMRunner parent state
      let r ← b.GetRealBaseFeeForCurrency vmRunner currencyAddress header.BaseFee
      pure (some r)
    | none, _, _ => pure none

end LesApiBackend

/-! ## Vocabulary of the statements -/

/-- The runner a contract read was evaluated on, for the calls that are
contract reads. -/
def Call.evaluatedOn : Call → Option EVMRunner
  | .GetBlockGasLimitOrDefault vmRunner => some vmRunner
  | .GetBlockGasLimit vmRunner => some vmRunner
  | .GetBaseFeeForCurrency vmRunner _ _ => some vmRunner
  | .GetRealBaseFeeForCurrency vmRunner _ _ => some vmRunner
  | _ => none

/-- Calls that only look a header, a block or a canonical hash up in the
chain: no state is materialized, no runner built, no contract read. -/
def Call.isChainLookup : Call → Bool
  | .CurrentHeader => true
  | .GetHeaderByNumberOdr _ => true
  | .GetHeaderByHash _ => true
  | .GetBlockByHash _ => true
  | .GetCanonicalHash _ => true
  | _ => false

/-- The runner `r` is built from the pair (parent header, state at the parent
header) that the chain resolves for `H.ParentHash`. -/
def BuiltFromParentOf (b : LesApiBackend) (H : Header) (r : EVMRunner) : Prop :=
  ∃ parent, b.getHeaderByHash H.ParentHash = some parent ∧ r = ⟨parent, ⟨parent⟩⟩

/-- The chain's by-hash lookup only returns headers whose hash is the one that
was asked for. -/
def HashConsistent (b : LesApiBackend) : Prop :=
  ∀ k K, b.getHeaderByHash k = some K → K.Hash = k

/-- The error of a hash lookup that finds no header. -/
def errHeaderNotFound : Error := Error.New "header for hash not found"

/-- The error of a block lookup that finds no body. -/
def errBodyMissing : Error := Error.New "header found, but block body is missing"

/-- The error of a canonicality check that fails. -/
def errNotCanonical : Error := Error.New "hash is not currently canonical"

/-- The reference `rpc.BlockNumberOrHash{BlockHash: &hash, RequireCanonical: req}`. -/
def hashRef (hash : CommonHash) (req : Bool) : BlockNumberOrHash :=
  { BlockNumber := none, BlockHash := some hash, RequireCanonical := req }

/-- The reference `rpc.BlockNumberOrHashWithNumber(number)`. -/
def numberRef (number : Int) : BlockNumberOrHash :=
  { BlockNumber := some number, BlockHash := none, RequireCanonical := false }

/-! ## A concrete chain

Block 1 (hash 101) is the parent of block 2 (hash 102) and of a fork block
(hash 202); block 3 (hash 103) carries its gas limit and base fee in the header;
the header with hash 109 names a parent the chain does not know. -/

/-- The header of block 1. -/
def header1 : Header :=
  { ParentHash := 100, Number := 1, GasLimit := 0, BaseFee := none, HashValue := 101 }

/-- The header of block 2, without embedded gas limit. -/
def header2 : Header :=
  { ParentHash := 101, Number := 2, GasLimit := 0, BaseFee := none, HashValue := 102 }

/-- The header of block 3, with embedded gas limit and base fee. -/
def header3 : Header :=
  { ParentHash := 102, Number := 3, GasLimit := 30000000, BaseFee := some 5, HashValue := 103 }

/-- A fork header at height 2. -/
def forkHeader : Header :=
  { ParentHash := 101, Number := 2, GasLimit := 0, BaseFee := none, HashValue := 202 }

/-- A header whose parent is unknown to the chain. -/
def orphanHeader : Header :=
  { ParentHash := 999, Number := 9, GasLimit := 0, BaseFee := none, HashValue := 109 }

/-- A light chain holding the headers above; the body of block 2 is absent and
block lookups of unknown hashes fail with the chain's own error. -/
def sampleBackend : LesApiBackend where
  PendingBlockNumber := -2
  LatestBlockNumber := -1
  DefaultGasLimit := 20000000
  currentHeader := some header3
  getHeaderByNumberOdr := fun n =>
    if n = 1 then (some header1, none)
    else if n = 2 then (some header2, none)
    else if n = 3 then (some header3, none)
    else (none, some (Error.New "no trusted canonical hash trie"))
  getHeaderByHash := fun h =>
    if h = 101 then some header1
    else if h = 102 then some header2
    else if h = 103 then some header3
    else if h = 202 then some forkHeader
    else if h = 109 then some orphanHeader
    else none
  getBlockByHash := fun h =>
    if h = 101 then (some ⟨header1, 0⟩, none)
    else if h = 103 then (some ⟨header3, 0⟩, none)
    else if h = 202 then (some ⟨forkHeader, 0⟩, none)
    else if h = 102 then (none, none)
    else (none, some (Error.New "unknown block"))
  getCanonicalHash := fun n =>
    if n = 1 then 101 else if n = 2 then 102 else if n = 3 then 103 else 0
  getBlockGasLimitOrDefault := fun r => if r.header = header1 then 20000000 else 10000000
  getBlockGasLimit := fun r =>
    if r.header = header1 then (20000000, none)
    else (0, some (Error.New "contract read failed"))
  getBaseFeeForCurrency := fun _ _ _ => (some 11, none)
  getRealBaseFeeForCurrency := fun _ _ _ => (some 13, none)

/-- A light chain whose retrieval by number answers with neither a header nor
an error. -/
def silentBackend : LesApiBackend :=
  { sampleBackend with getHeaderByNumberOdr := fun _ => (none, none) }

/-- A light chain that resolves the same numbers as the sample chain, but in
which every lookup by hash finds nothing and every contract read fails. -/
def isolatedBackend : LesApiBackend :=
  { sampleBackend with
    getHeaderByHash := fun _ => none
    getBlockGasLimitOrDefault := fun _ => 0
    getBlockGasLimit := fun _ => (0, some (Error.New "contract read failed")) }

namespace LesApiBackend

/-! ## Trace lemmas -/

theorem bind_eq {α β : Type} (x : Traced α) (f : α → Traced β) :
    (x >>= f) = ⟨(f x.result).result, x.calls ++ (f x.result).calls⟩ := rfl

theorem pure_eq {α : Type} (a : α) : (pure a : Traced α) = ⟨a, []⟩ := rfl

theorem HeaderByNumber_eq (b : LesApiBackend) (number : Int) :
    b.HeaderByNumber number =
      if number = b.PendingBlockNumber ∨ number = b.LatestBlockNumber then
        ⟨(b.currentHeader, none), [Call.CurrentHeader]⟩
      else
        ⟨b.getHeaderByNumberOdr (uint64OfBlockNumber number),
          [Call.GetHeaderByNumberOdr (uint64OfBlockNumber number)]⟩ := by
  by_cases hP : number = b.PendingBlockNumber <;> by_cases hL : number = b.LatestBlockNumber <;>
    simp [HeaderByNumber, CurrentHeader, GetHeaderByNumberOdr, bind_eq, pure_eq, hP, hL]

theorem HeaderByNumberOrHash_hash (b : LesApiBackend) (h : CommonHash) (req : Bool) :
    b.HeaderByNumberOrHash (hashRef h req) =
      match b.getHeaderByHash h with
      | none => ⟨(none, some errHeaderNotFound), [Call.GetHeaderByHash h]⟩
      | some H =>
        if req then
          if b.getCanonicalHash H.NumberUint64 ≠ h then
            ⟨(none, some errNotCanonical),
              [Call.GetHeaderByHash h, Call.GetCanonicalHash H.NumberUint64]⟩
          else
            ⟨(some H, none), [Call.GetHeaderByHash h, Call.GetCanonicalHash H.NumberUint64]⟩
        else ⟨(some H, none), [Call.GetHeaderByHash h]⟩ := by
  cases hp : b.getHeaderByHash h with
  | none =>
    simp [HeaderByNumberOrHash, hashRef, BlockNumberOrHash.getNumber, BlockNumberOrHash.getHash,
      HeaderByHash, GetHeaderByHash, bind_eq, pure_eq, hp, errHeaderNotFound]
  | some H =>
    cases req <;>
      by_cases hc : b.getCanonicalHash H.NumberUint64 = h <;>
      simp [HeaderByNumberOrHash, hashRef, BlockNumberOrHash.getNumber,
        BlockNumberOrHash.getHash, HeaderByHash, GetHeaderByHash, GetCanonicalHash, bind_eq,
        pure_eq, hp, hc, errNotCanonical]

theorem StateAndHeaderByNumberOrHash_hash (b : LesApiBackend) (h : CommonHash) (req : Bool) :
    b.StateAndHeaderByNumberOrHash (hashRef h req) =
      match b.getHeaderByHash h with
      | none => ⟨(none, none, some errHeaderNotFound), [Call.GetHeaderByHash h]⟩
      | some H =>
        if req then
          if b.getCanonicalHash H.NumberUint64 ≠ h then
            ⟨(none, none, some errNotCanonical),
              [Call.GetHeaderByHash h, Call.GetCanonicalHash H.NumberUint64]⟩
          else
            ⟨(some ⟨H⟩, some H, none),
              [Call.GetHeaderByHash h, Call.GetCanonicalHash H.NumberUint64, Call.NewState H]⟩
        else ⟨(some ⟨H⟩, some H, none), [Call.GetHeaderByHash h, Call.NewState H]⟩ := by
  cases hp : b.getHeaderByHash h with
  | none =>
    simp [StateAndHeaderByNumberOrHash, hashRef, BlockNumberOrHash.getNumber,
      BlockNumberOrHash.getHash, GetHeaderByHash, bind_eq, pure_eq, hp, errHeaderNotFound]
  | some H =>
    cases req <;>
      by_cases hc : b.getCanonicalHash H.NumberUint64 = h <;>
      simp [StateAndHeaderByNumberOrHash, hashRef, BlockNumberOrHash.getNumber,
        BlockNumberOrHash.getHash, GetHeaderByHash, GetCanonicalHash, NewState, bind_eq,
        pure_eq, hp, hc, errNotCanonical]

theorem BlockByNumberOrHash_hash (b : LesApiBackend) (h : CommonHash) (req : Bool) :
    b.BlockByNumberOrHash (hashRef h req) =
      match b.getBlockByHash h with
      | (_, some e) => ⟨(none, some e), [Call.GetBlockByHash h]⟩
      | (none, none) => ⟨(none, some errBodyMissing), [Call.GetBlockByHash h]⟩
      | (some blk, none) =>
        if req then
          if b.getCanonicalHash blk.NumberU64 ≠ h then
            ⟨(none, some errNotCanonical),
              [Call.GetBlockByHash h, Call.GetCanonicalHash blk.NumberU64]⟩
          else
            ⟨(some blk, none), [Call.GetBlockByHash h, Call.GetCanonicalHash blk.NumberU64]⟩
        else ⟨(some blk, none), [Call.GetBlockByHash h]⟩ := by
  rcases hp : b.getBlockByHash h with ⟨blk, err⟩
  cases err with
  | some e =>
    simp [BlockByNumberOrHash, hashRef, BlockNumberOrHash.getNumber, BlockNumberOrHash.getHash,
      BlockByHash, GetBlockByHash, bind_eq, pure_eq, hp]
  | none =>
    cases blk with
    | none =>
      simp [BlockByNumberOrHash, hashRef, BlockNumberOrHash.getNumber,
        BlockNumberOrHash.getHash, BlockByHash, GetBlockByHash, bind_eq, pure_eq, hp,
        errBodyMissing]
    | some blk =>
      cases req <;>
        by_cases hc : b.getCanonicalHash blk.NumberU64 = h <;>
        simp [BlockByNumberOrHash, hashRef, BlockNumberOrHash.getNumber,
          BlockNumberOrHash.getHash, BlockByHash, GetBlockByHash, GetCanonicalHash, bind_eq,
          pure_eq, hp, hc, errNotCanonical]

theorem ofHash_eq (h : CommonHash) : BlockNumberOrHash.ofHash h = hashRef h false := rfl

theorem StateAndHeaderByNumberOrHash_parent (b : LesApiBackend) (h : CommonHash) :
    b.StateAndHeaderByNumberOrHash (BlockNumberOrHash.ofHash h) =
      match b.getHeaderByHash h with
      | none => ⟨(none, none, some errHeaderNotFound), [Call.GetHeaderByHash h]⟩
      | some p => ⟨(some ⟨p⟩, some p, none), [Call.GetHeaderByHash h, Call.NewState p]⟩ := by
  rw [ofHash_eq, StateAndHeaderByNumberOrHash_hash]
  cases b.getHeaderByHash h <;> simp

theorem HeaderByNumber_calls (b : LesApiBackend) (number : Int) :
    ∀ c ∈ (b.HeaderByNumber number).calls, c.isChainLookup = true := by
  rw [HeaderByNumber_eq]
  split <;> simp [Call.isChainLookup]

theorem HeaderByNumberOrHash_calls (b : LesApiBackend) (ref : BlockNumberOrHash) :
    ∀ c ∈ (b.HeaderByNumberOrHash ref).calls, c.isChainLookup = true := by
  rcases ref with ⟨num, hash, req⟩
  cases num with
  | some n =>
    simpa [HeaderByNumberOrHash, BlockNumberOrHash.getNumber] using b.HeaderByNumber_calls n
  | none =>
    cases hash with
    | none =>
      simp [HeaderByNumberOrHash, BlockNumberOrHash.getNumber, BlockNumberOrHash.getHash,
        pure_eq]
    | some h =>
      have key := b.HeaderByNumberOrHash_hash h req
      simp only [hashRef] at key
      rw [key]
      cases b.getHeaderByHash h with
      | none => simp [Call.isChainLookup]
      | some H =>
        cases req <;> by_cases hc : b.getCanonicalHash H.NumberUint64 = h <;>
          simp [Call.isChainLookup, hc]

theorem GetBlockGasLimit_fast (b : LesApiBackend) (ref : BlockNumberOrHash) (H : Header)
    (hres : (b.HeaderByNumberOrHash ref).result = (some H, none)) (hgas : 0 < H.GasLimit) :
    b.GetBlockGasLimit ref = ⟨some H.GasLimit, (b.HeaderByNumberOrHash ref).calls⟩ := by
  simp [GetBlockGasLimit, bind_eq, pure_eq, hres, hgas]

theorem GetRealBlockGasLimit_fast (b : LesApiBackend) (ref : BlockNumberOrHash) (H : Header)
    (hres : (b.HeaderByNumberOrHash ref).result = (some H, none)) (hgas : 0 < H.GasLimit) :
    b.GetRealBlockGasLimit ref =
      ⟨some (H.GasLimit, none), (b.HeaderByNumberOrHash ref).calls⟩ := by
  simp [GetRealBlockGasLimit, bind_eq, pure_eq, hres, hgas]

theorem GetBlockGasLimit_slow (b : LesApiBackend) (ref : BlockNumberOrHash) (H : Header)
    (hres : (b.HeaderByNumberOrHash ref).result = (some H, none)) (hgas : H.GasLimit = 0) :
    b.GetBlockGasLimit ref =
      match b.getHeaderByHash H.ParentHash with
      | none => ⟨some b.DefaultGasLimit, (b.HeaderByNumberOrHash ref).calls ++
          [Call.GetHeaderByHash H.ParentHash,
           Call.Warn "Cannot create evmCaller to get blockGasLimit" errHeaderNotFound]⟩
      | some p => ⟨some (b.getBlockGasLimitOrDefault ⟨p, ⟨p⟩⟩),
          (b.HeaderByNumberOrHash ref).calls ++
          [Call.GetHeaderByHash H.ParentHash, Call.NewState p, Call.NewEVMRunner p ⟨p⟩,
           Call.GetBlockGasLimitOrDefault ⟨p, ⟨p⟩⟩]⟩ := by
  cases hp : b.getHeaderByHash H.ParentHash <;>
    simp [GetBlockGasLimit, bind_eq, pure_eq, hres, hgas, StateAndHeaderByNumberOrHash_parent,
      hp, Warn, NewEVMRunner, GetBlockGasLimitOrDefault]

theorem GetRealBlockGasLimit_slow (b : LesApiBackend) (ref : BlockNumberOrHash) (H : Header)
    (hres : (b.HeaderByNumberOrHash ref).result = (some H, none)) (hgas : H.GasLimit = 0) :
    b.GetRealBlockGasLimit ref =
      match b.getHeaderByHash H.ParentHash with
      | none => ⟨some (0, some (Error.Errorf stateStageFormat ref errHeaderNotFound)),
          (b.HeaderByNumberOrHash ref).calls ++ [Call.GetHeaderByHash H.ParentHash]⟩
      | some p =>
        ⟨(match b.getBlockGasLimit ⟨p, ⟨p⟩⟩ with
          | (_, some e) => some (0, some (Error.Errorf contractStageFormat ref e))
          | (limit, none) => some (limit, none)),
          (b.HeaderByNumberOrHash ref).calls ++
          [Call.GetHeaderByHash H.ParentHash, Call.NewState p, Call.NewEVMRunner p ⟨p⟩,
           Call.GetBlockGasLimit ⟨p, ⟨p⟩⟩]⟩ := by
  cases hp : b.getHeaderByHash H.ParentHash with
  | none =>
    simp [GetRealBlockGasLimit, bind_eq, pure_eq, hres, hgas,
      StateAndHeaderByNumberOrHash_parent, hp]
  | some p =>
    rcases hl : b.getBlockGasLimit ⟨p, ⟨p⟩⟩ with ⟨limit, err⟩
    cases err <;>
      simp [GetRealBlockGasLimit, bind_eq, pure_eq, hres, hgas,
        StateAndHeaderByNumberOrHash_parent, hp, NewEVMRunner, ReadBlockGasLimit, hl]

theorem GasPriceMinimumForHeader_slow (b : LesApiBackend) (cur : Option Address) (H : Header)
    (hslow : H.BaseFee = none ∨ cur ≠ none) :
    b.GasPriceMinimumForHeader cur H =
      match b.getHeaderByHash H.ParentHash with
      | none => ⟨some (none, some errHeaderNotFound), [Call.GetHeaderByHash H.ParentHash]⟩
      | some p => ⟨some (b.getBaseFeeForCurrency ⟨p, ⟨p⟩⟩ cur H.BaseFee),
          [Call.GetHeaderByHash H.ParentHash, Call.NewState p, Call.NewEVMRunner p ⟨p⟩,
           Call.GetBaseFeeForCurrency ⟨p, ⟨p⟩⟩ cur H.BaseFee]⟩ := by
  have hc : ¬ (H.BaseFee ≠ none ∧ cur = none) := by
    rcases hslow with h | h
    · simp [h]
    · simp [h]
  cases hp : b.getHeaderByHash H.ParentHash <;>
    simp [GasPriceMinimumForHeader, if_neg hc, bind_eq, pure_eq,
      StateAndHeaderByNumberOrHash_parent, hp, NewEVMRunner, GetBaseFeeForCurrency]

theorem RealGasPriceMinimumForHeader_slow (b : LesApiBackend) (cur : Option Address)
    (H : Header) (hslow : H.BaseFee = none ∨ cur ≠ none) :
    b.RealGasPriceMinimumForHeader cur H =
      match b.getHeaderByHash H.ParentHash with
      | none => ⟨some (none, some errHeaderNotFound), [Call.GetHeaderByHash H.ParentHash]⟩
      | some p => ⟨some (b.getRealBaseFeeForCurrency ⟨p, ⟨p⟩⟩ cur H.BaseFee),
          [Call.GetHeaderByHash H.ParentHash, Call.NewState p, Call.NewEVMRunner p ⟨p⟩,
           Call.GetRealBaseFeeForCurrency ⟨p, ⟨p⟩⟩ cur H.BaseFee]⟩ := by
  have hc : ¬ (H.BaseFee ≠ none ∧ cur = none) := by
    rcases hslow with h | h
    · simp [h]
    · simp [h]
  cases hp : b.getHeaderByHash H.ParentHash <;>
    simp [RealGasPriceMinimumForHeader, if_neg hc, bind_eq, pure_eq,
      StateAndHeaderByNumberOrHash_parent, hp, NewEVMRunner, GetRealBaseFeeForCurrency]

theorem builtFromParentOf_intro (b : LesApiBackend) (H p : Header)
    (hp : b.getHeaderByHash H.ParentHash = some p) : BuiltFromParentOf b H ⟨p, ⟨p⟩⟩ :=
  ⟨p, hp, rfl⟩

theorem builtFromParentOf_ne (b : LesApiBackend) (H : Header) (r : EVMRunner)
    (hr : BuiltFromParentOf b H r) (hcons : HashConsistent b) (hne : H.ParentHash ≠ H.Hash) :
    r.header ≠ H ∧ r.state ≠ ⟨H⟩ := by
  obtain ⟨p, hp, rfl⟩ := hr
  have hpH : p ≠ H := by
    intro h
    subst h
    exact hne (hcons _ _ hp).symm
  refine ⟨hpH, ?_⟩
  intro h
  exact hpH (by injection h)

theorem sampleBackend_hashConsistent : HashConsistent sampleBackend := by
  intro k K hk
  simp only [sampleBackend] at hk
  split_ifs at hk <;> simp_all <;> (subst hk; subst_vars; rfl)

theorem gas_limit_reads_on_parent (b : LesApiBackend) (ref : BlockNumberOrHash) (H : Header)
    (hres : (b.HeaderByNumberOrHash ref).result = (some H, none)) (hgas : H.GasLimit = 0) :
    (∀ c ∈ (b.GetBlockGasLimit ref).calls ++ (b.GetRealBlockGasLimit ref).calls,
      ∀ r, c.evaluatedOn = some r → BuiltFromParentOf b H r) ∧
    (Call.NewState H ∈ (b.GetBlockGasLimit ref).calls ++ (b.GetRealBlockGasLimit ref).calls →
      b.getHeaderByHash H.ParentHash = some H) ∧
    (∀ p, b.getHeaderByHash H.ParentHash = some p →
      Call.GetBlockGasLimitOrDefault ⟨p, ⟨p⟩⟩ ∈ (b.GetBlockGasLimit ref).calls ∧
      Call.GetBlockGasLimit ⟨p, ⟨p⟩⟩ ∈ (b.GetRealBlockGasLimit ref).calls) := by
  have hlook := b.HeaderByNumberOrHash_calls ref
  have hnoeval : ∀ c ∈ (b.HeaderByNumberOrHash ref).calls, ∀ r, c.evaluatedOn ≠ some r := by
    intro c hc r
    have := hlook c hc
    cases c <;> simp_all [Call.isChainLookup, Call.evaluatedOn]
  have hnostate : Call.NewState H ∉ (b.HeaderByNumberOrHash ref).calls := by
    intro hc
    have := hlook _ hc
    simp [Call.isChainLookup] at this
  rw [b.GetBlockGasLimit_slow ref H hres hgas, b.GetRealBlockGasLimit_slow ref H hres hgas]
  refine ⟨?_, ?_, ?_⟩
  · intro c hc r hr
    cases hp : b.getHeaderByHash H.ParentHash with
    | none =>
      simp only [hp, List.mem_append, List.mem_cons, List.mem_singleton, List.not_mem_nil,
        or_false] at hc
      rcases hc with (hc | hc | hc) | (hc | hc)
      · exact absurd hr (hnoeval c hc r)
      · subst hc; simp [Call.evaluatedOn] at hr
      · subst hc; simp [Call.evaluatedOn] at hr
      · exact absurd hr (hnoeval c hc r)
      · subst hc; simp [Call.evaluatedOn] at hr
    | some p =>
      simp only [hp, List.mem_append, List.mem_cons, List.mem_singleton, List.not_mem_nil,
        or_false] at hc
      rcases hc with (hc | hc | hc | hc | hc) | (hc | hc | hc | hc | hc)
      · exact absurd hr (hnoeval c hc r)
      · subst hc; simp [Call.evaluatedOn] at hr
      · subst hc; simp [Call.evaluatedOn] at hr
      · subst hc; simp [Call.evaluatedOn] at hr
      · subst hc
        simp only [Call.evaluatedOn, Option.some.injEq] at hr
        subst hr
        exact b.builtFromParentOf_intro H p hp
      · exact absurd hr (hnoeval c hc r)
      · subst hc; simp [Call.evaluatedOn] at hr
      · subst hc; simp [Call.evaluatedOn] at hr
      · subst hc; simp [Call.evaluatedOn] at hr
      · subst hc
        simp only [Call.evaluatedOn, Option.some.injEq] at hr
        subst hr
        exact b.builtFromParentOf_intro H p hp
  · cases hp : b.getHeaderByHash H.ParentHash with
    | none =>
      simp only [List.mem_append, List.mem_cons, List.mem_singleton, List.not_mem_nil,
        or_false]
      rintro ((hc | hc | hc) | (hc | hc))
      · exact absurd hc hnostate
      · cases hc
      · cases hc
      · exact absurd hc hnostate
      · cases hc
    | some p =>
      simp only [List.mem_append, List.mem_cons, List.mem_singleton, List.not_mem_nil,
        or_false]
      rintro ((hc | hc | hc | hc | hc) | (hc | hc | hc | hc | hc))
      · exact absurd hc hnostate
      · cases hc
      · injection hc with hc; rw [hc]
      · cases hc
      · cases hc
      · exact absurd hc hnostate
      · cases hc
      · injection hc with hc; rw [hc]
      · cases hc
      · cases hc
  · intro p hp
    simp [hp]

theorem gas_price_reads_on_parent (b : LesApiBackend) (cur : Option Address) (G : Header)
    (hfee : G.BaseFee = none ∨ cur ≠ none) :
    (∀ c ∈ (b.GasPriceMinimumForHeader cur G).calls ++
        (b.RealGasPriceMinimumForHeader cur G).calls,
      ∀ r, c.evaluatedOn = some r → BuiltFromParentOf b G r) ∧
    (Call.NewState G ∈ (b.GasPriceMinimumForHeader cur G).calls ++
        (b.RealGasPriceMinimumForHeader cur G).calls →
      b.getHeaderByHash G.ParentHash = some G) ∧
    (∀ p, b.getHeaderByHash G.ParentHash = some p →
      Call.GetBaseFeeForCurrency ⟨p, ⟨p⟩⟩ cur G.BaseFee ∈
        (b.GasPriceMinimumForHeader cur G).calls ∧
      Call.GetRealBaseFeeForCurrency ⟨p, ⟨p⟩⟩ cur G.BaseFee ∈
        (b.RealGasPriceMinimumForHeader cur G).calls) := by
  rw [b.GasPriceMinimumForHeader_slow cur G hfee, b.RealGasPriceMinimumForHeader_slow cur G hfee]
  refine ⟨?_, ?_, ?_⟩
  · intro c hc r hr
    cases hp : b.getHeaderByHash G.ParentHash with
    | none =>
      simp only [hp, List.mem_append, List.mem_singleton] at hc
      rcases hc with hc | hc <;> (subst hc; simp [Call.evaluatedOn] at hr)
    | some p =>
      simp only [hp, List.mem_append, List.mem_cons, List.mem_singleton, List.not_mem_nil,
        or_false] at hc
      rcases hc with (hc | hc | hc | hc) | (hc | hc | hc | hc)
      · subst hc; simp [Call.evaluatedOn] at hr
      · subst hc; simp [Call.evaluatedOn] at hr
      · subst hc; simp [Call.evaluatedOn] at hr
      · subst hc
        simp only [Call.evaluatedOn, Option.some.injEq] at hr
        subst hr
        exact b.builtFromParentOf_intro G p hp
      · subst hc; simp [Call.evaluatedOn] at hr
      · subst hc; simp [Call.evaluatedOn] at hr
      · subst hc; simp [Call.evaluatedOn] at hr
      · subst hc
        simp only [Call.evaluatedOn, Option.some.injEq] at hr
        subst hr
        exact b.builtFromParentOf_intro G p hp
  · cases hp : b.getHeaderByHash G.ParentHash with
    | none =>
      simp only [List.mem_append, List.mem_singleton]
      rintro (hc | hc) <;> cases hc
    | some p =>
      simp only [List.mem_append, List.mem_cons, List.mem_singleton, List.not_mem_nil,
        or_false]
      rintro ((hc | hc | hc | hc) | (hc | hc | hc | hc))
      · cases hc
      · injection hc with hc; rw [hc]
      · cases hc
      · cases hc
      · cases hc
      · injection hc with hc; rw [hc]
      · cases hc
      · cases hc
  · intro p hp
    simp [hp]

/-! ## Protocol parameter evaluator: override and parent state -/

/-- C1: when no override applies, every contract read in the trace of the
operation is evaluated on the runner built from the pair (parent, state at
parent) that the chain resolves for the parent hash, and that read does take
place whenever the parent resolves.  For the gas-limit operations this holds
for every reference that resolves to a header `H` with `GasLimit = 0`; for the
gas-price operations, independently, for every header `G` and currency with
`G.BaseFee` nil or the currency non-native.  The state at the header itself is
materialized only if the chain resolves the parent hash to that very header,
and on a chain whose by-hash lookup returns headers with the requested hash a
header that is not its own parent is never the one the runner, or its state, is
built from. -/
theorem parent_state_invariant (b : LesApiBackend) (ref : BlockNumberOrHash)
    (cur : Option Address) (H G : Header) :
    ((b.HeaderByNumberOrHash ref).result = (some H, none) → H.GasLimit = 0 →
      (∀ c ∈ (b.GetBlockGasLimit ref).calls ++ (b.GetRealBlockGasLimit ref).calls,
        ∀ r, c.evaluatedOn = some r → BuiltFromParentOf b H r) ∧
      (Call.NewState H ∈
          (b.GetBlockGasLimit ref).calls ++ (b.GetRealBlockGasLimit ref).calls →
        b.getHeaderByHash H.ParentHash = some H) ∧
      (∀ p, b.getHeaderByHash H.ParentHash = some p →
        Call.GetBlockGasLimitOrDefault ⟨p, ⟨p⟩⟩ ∈ (b.GetBlockGasLimit ref).calls ∧
        Call.GetBlockGasLimit ⟨p, ⟨p⟩⟩ ∈ (b.GetRealBlockGasLimit ref).calls)) ∧
    (G.BaseFee = none ∨ cur ≠ none →
      (∀ c ∈ (b.GasPriceMinimumForHeader cur G).calls ++
          (b.RealGasPriceMinimumForHeader cur G).calls,
        ∀ r, c.evaluatedOn = some r → BuiltFromParentOf b G r) ∧
      (Call.NewState G ∈ (b.GasPriceMinimumForHeader cur G).calls ++
          (b.RealGasPriceMinimumForHeader cur G).calls →
        b.getHeaderByHash G.ParentHash = some G) ∧
      (∀ p, b.getHeaderByHash G.ParentHash = some p →
        Call.GetBaseFeeForCurrency ⟨p, ⟨p⟩⟩ cur G.BaseFee ∈
          (b.GasPriceMinimumForHeader cur G).calls ∧
        Call.GetRealBaseFeeForCurrency ⟨p, ⟨p⟩⟩ cur G.BaseFee ∈
          (b.RealGasPriceMinimumForHeader cur G).calls)) ∧
    (∀ K r, BuiltFromParentOf b K r → HashConsistent b → K.ParentHash ≠ K.Hash →
      r.header ≠ K ∧ r.state ≠ ⟨K⟩) :=
  ⟨fun hres hgas => b.gas_limit_reads_on_parent ref H hres hgas,
    fun hfee => b.gas_price_reads_on_parent cur G hfee,
    fun K r hr hcons hne => b.builtFromParentOf_ne K r hr hcons hne⟩

/-- Witness for C1 on the concrete chain.  Block 2 has no embedded gas limit:
its gas-limit reads are evaluated on the runner of block 1.  Block 3 is asked
for the minimum price in currency 7: the read is evaluated on the runner of
block 2, which is not built from block 3 nor from the state at block 3. -/
theorem parent_state_invariant_witness :
    ((sampleBackend.HeaderByNumberOrHash (numberRef 2)).result = (some header2, none) ∧
      header2.GasLimit = 0 ∧
      BuiltFromParentOf sampleBackend header2 ⟨header1, ⟨header1⟩⟩ ∧
      Call.GetBlockGasLimit ⟨header1, ⟨header1⟩⟩ ∈
        (sampleBackend.GetRealBlockGasLimit (numberRef 2)).calls) ∧
    ((header3.BaseFee = none ∨ (some 7 : Option Address) ≠ none) ∧
      BuiltFromParentOf sampleBackend header3 ⟨header2, ⟨header2⟩⟩ ∧
      Call.GetBaseFeeForCurrency ⟨header2, ⟨header2⟩⟩ (some 7) header3.BaseFee ∈
        (sampleBackend.GasPriceMinimumForHeader (some 7) header3).calls ∧
      Call.GetRealBaseFeeForCurrency ⟨header2, ⟨header2⟩⟩ (some 7) header3.BaseFee ∈
        (sampleBackend.RealGasPriceMinimumForHeader (some 7) header3).calls) ∧
    (HashConsistent sampleBackend ∧ header3.ParentHash ≠ header3.Hash ∧
      (⟨header2, ⟨header2⟩⟩ : EVMRunner).header ≠ header3 ∧
      (⟨header2, ⟨header2⟩⟩ : EVMRunner).state ≠ ⟨header3⟩) :=
  ⟨⟨by decide, by decide,
      ((parent_state_invariant sampleBackend (numberRef 2) (some 7) header2 header3).1
        (by decide) (by decide)).1
        (Call.GetBlockGasLimitOrDefault ⟨header1, ⟨header1⟩⟩) (by decide) _ rfl,
      (((parent_state_invariant sampleBackend (numberRef 2) (some 7) header2 header3).1
        (by decide) (by decide)).2.2 header1 (by decide)).2⟩,
    ⟨by decide,
      ((parent_state_invariant sampleBackend (numberRef 2) (some 7) header2 header3).2.1
        (by decide)).1
        (Call.GetBaseFeeForCurrency ⟨header2, ⟨header2⟩⟩ (some 7) header3.BaseFee)
        (by decide) _ rfl,
      (((parent_state_invariant sampleBackend (numberRef 2) (some 7) header2 header3).2.1
        (by decide)).2.2 header2 (by decide)).1,
      (((parent_state_invariant sampleBackend (numberRef 2) (some 7) header2 header3).2.1
        (by decide)).2.2 header2 (by decide)).2⟩,
    ⟨sampleBackend_hashConsistent, by decide,
      (parent_state_invariant sampleBackend (numberRef 2) (some 7) header2 header3).2.2
        header3 ⟨header2, ⟨header2⟩⟩
        (((parent_state_invariant sampleBackend (numberRef 2) (some 7) header2 header3).2.1
          (by decide)).1
          (Call.GetBaseFeeForCurrency ⟨header2, ⟨header2⟩⟩ (some 7) header3.BaseFee)
          (by decide) _ rfl)
        sampleBackend_hashConsistent (by decide)⟩⟩

/-- C2: a reference that resolves to a header `H` with `H.GasLimit > 0` makes
`GetBlockGasLimit` return `H.GasLimit` and `GetRealBlockGasLimit` return
`(H.GasLimit, nil)`; the calls made are exactly those of the header resolution,
all of them chain lookups (no state, no runner, no contract read), and any
other backend that resolves the reference to `H` gives the same results. -/
theorem gas_limit_override (b : LesApiBackend) (ref : BlockNumberOrHash) (H : Header)
    (hres : (b.HeaderByNumberOrHash ref).result = (some H, none)) (hgas : 0 < H.GasLimit) :
    b.GetBlockGasLimit ref = ⟨some H.GasLimit, (b.HeaderByNumberOrHash ref).calls⟩ ∧
    b.GetRealBlockGasLimit ref = ⟨some (H.GasLimit, none), (b.HeaderByNumberOrHash ref).calls⟩ ∧
    (∀ c ∈ (b.GetBlockGasLimit ref).calls ++ (b.GetRealBlockGasLimit ref).calls,
      c.isChainLookup = true ∧ c.evaluatedOn = none) ∧
    (∀ b2 : LesApiBackend, (b2.HeaderByNumberOrHash ref).result = (some H, none) →
      (b2.GetBlockGasLimit ref).result = (b.GetBlockGasLimit ref).result ∧
      (b2.GetRealBlockGasLimit ref).result = (b.GetRealBlockGasLimit ref).result) := by
  have h1 := b.GetBlockGasLimit_fast ref H hres hgas
  have h2 := b.GetRealBlockGasLimit_fast ref H hres hgas
  refine ⟨h1, h2, ?_, ?_⟩
  · intro c hc
    rw [h1, h2] at hc
    have hl : c.isChainLookup = true := by
      rcases List.mem_append.mp hc with hc | hc <;> exact b.HeaderByNumberOrHash_calls ref c hc
    refine ⟨hl, ?_⟩
    cases c <;> simp_all [Call.isChainLookup, Call.evaluatedOn]
  · intro b2 hres2
    rw [h1, h2, b2.GetBlockGasLimit_fast ref H hres2 hgas,
      b2.GetRealBlockGasLimit_fast ref H hres2 hgas]
    exact ⟨rfl, rfl⟩

/-- Witness for C2 on the concrete chain: block 3 embeds its gas limit, and a
chain whose parent lookups and contract reads differ gives the same answer. -/
theorem gas_limit_override_witness :
    (sampleBackend.HeaderByNumberOrHash (numberRef 3)).result = (some header3, none) ∧
    0 < header3.GasLimit ∧
    sampleBackend.GetBlockGasLimit (numberRef 3) =
      ⟨some 30000000, [Call.GetHeaderByNumberOdr 3]⟩ ∧
    sampleBackend.GetRealBlockGasLimit (numberRef 3) =
      ⟨some (30000000, none), [Call.GetHeaderByNumberOdr 3]⟩ ∧
    (isolatedBackend.HeaderByNumberOrHash (numberRef 3)).result = (some header3, none) ∧
    (isolatedBackend.GetRealBlockGasLimit (numberRef 3)).result =
      (sampleBackend.GetRealBlockGasLimit (numberRef 3)).result :=
  ⟨by decide, by decide,
    (gas_limit_override sampleBackend (numberRef 3) header3 (by decide) (by decide)).1,
    (gas_limit_override sampleBackend (numberRef 3) header3 (by decide) (by decide)).2.1,
    by decide,
    ((gas_limit_override sampleBackend (numberRef 3) header3 (by decide) (by decide)).2.2.2
      isolatedBackend (by decide)).2⟩

/-- C3: with a non-nil `BaseFee` and the native currency, both gas-price
operations return exactly `H.BaseFee` with a nil error and make no call at all
(whatever the backend); when `BaseFee` is nil or a currency is given, both
start by resolving the parent hash and return the outcome of that path. -/
theorem base_fee_override (b : LesApiBackend) (cur : Option Address) (H : Header) :
    (H.BaseFee ≠ none ∧ cur = none →
      b.GasPriceMinimumForHeader cur H = ⟨some (H.BaseFee, none), []⟩ ∧
      b.RealGasPriceMinimumForHeader cur H = ⟨some (H.BaseFee, none), []⟩ ∧
      ∀ b2 : LesApiBackend,
        b2.GasPriceMinimumForHeader cur H = b.GasPriceMinimumForHeader cur H ∧
        b2.RealGasPriceMinimumForHeader cur H = b.RealGasPriceMinimumForHeader cur H) ∧
    (H.BaseFee = none ∨ cur ≠ none →
      (b.GasPriceMinimumForHeader cur H).calls.head? = some (Call.GetHeaderByHash H.ParentHash) ∧
      (b.RealGasPriceMinimumForHeader cur H).calls.head? =
        some (Call.GetHeaderByHash H.ParentHash) ∧
      (b.getHeaderByHash H.ParentHash = none →
        (b.GasPriceMinimumForHeader cur H).result = some (none, some errHeaderNotFound) ∧
        (b.RealGasPriceMinimumForHeader cur H).result = some (none, some errHeaderNotFound)) ∧
      (∀ p, b.getHeaderByHash H.ParentHash = some p →
        (b.GasPriceMinimumForHeader cur H).result =
          some (b.getBaseFeeForCurrency ⟨p, ⟨p⟩⟩ cur H.BaseFee) ∧
        (b.RealGasPriceMinimumForHeader cur H).result =
          some (b.getRealBaseFeeForCurrency ⟨p, ⟨p⟩⟩ cur H.BaseFee))) := by
  constructor
  · intro hfast
    have key : ∀ b2 : LesApiBackend,
        b2.GasPriceMinimumForHeader cur H = ⟨some (H.BaseFee, none), []⟩ ∧
        b2.RealGasPriceMinimumForHeader cur H = ⟨some (H.BaseFee, none), []⟩ := by
      intro b2
      simp [GasPriceMinimumForHeader, RealGasPriceMinimumForHeader, if_pos hfast, pure_eq]
    refine ⟨(key b).1, (key b).2, fun b2 => ?_⟩
    rw [(key b).1, (key b).2]
    exact key b2
  · intro hslow
    rw [b.GasPriceMinimumForHeader_slow cur H hslow,
      b.RealGasPriceMinimumForHeader_slow cur H hslow]
    cases hp : b.getHeaderByHash H.ParentHash <;> simp

/-- Witness for C3 on the concrete chain: block 3 embeds a base fee of 5, which
is returned for the native currency; for currency 7 the parent is resolved. -/
theorem base_fee_override_witness :
    (header3.BaseFee ≠ none ∧ (none : Option Address) = none) ∧
    sampleBackend.GasPriceMinimumForHeader none header3 = ⟨some (some 5, none), []⟩ ∧
    (header3.BaseFee = none ∨ (some 7 : Option Address) ≠ none) ∧
    (sampleBackend.GasPriceMinimumForHeader (some 7) header3).calls.head? =
      some (Call.GetHeaderByHash 102) :=
  ⟨by decide, ((base_fee_override sampleBackend none header3).1 (by decide)).1,
    by decide, ((base_fee_override sampleBackend (some 7) header3).2 (by decide)).1⟩

/-! ## Reference resolver -/

/-- C9: `HeaderByNumber` on `Pending` and on `Latest` returns the chain's
current header with a nil error after the single call `CurrentHeader` (the
retrieval by number is not consulted), so both results are equal; any other
number `n` returns, unchanged, the pair the retrieval by number gives for
`uint64(n)`. -/
theorem header_by_number_resolution (b : LesApiBackend) (number : Int) :
    b.HeaderByNumber b.PendingBlockNumber = ⟨(b.currentHeader, none), [Call.CurrentHeader]⟩ ∧
    b.HeaderByNumber b.LatestBlockNumber = ⟨(b.currentHeader, none), [Call.CurrentHeader]⟩ ∧
    b.HeaderByNumber b.PendingBlockNumber = b.HeaderByNumber b.LatestBlockNumber ∧
    b.HeaderByNumber number =
      if number = b.PendingBlockNumber ∨ number = b.LatestBlockNumber then
        ⟨(b.currentHeader, none), [Call.CurrentHeader]⟩
      else
        ⟨b.getHeaderByNumberOdr (uint64OfBlockNumber number),
          [Call.GetHeaderByNumberOdr (uint64OfBlockNumber number)]⟩ := by
  have hP : b.HeaderByNumber b.PendingBlockNumber =
      ⟨(b.currentHeader, none), [Call.CurrentHeader]⟩ := by
    rw [HeaderByNumber_eq]; simp
  have hL : b.HeaderByNumber b.LatestBlockNumber =
      ⟨(b.currentHeader, none), [Call.CurrentHeader]⟩ := by
    rw [HeaderByNumber_eq]; simp
  exact ⟨hP, hL, hP.trans hL.symm, b.HeaderByNumber_eq number⟩

/-- C4: for a hash `h` whose header `H` (and, for block resolution, whose
block) sits at a height where the chain's canonical hash differs from `h`, the
three resolvers fail with "hash is not currently canonical" when
`RequireCanonical` is set, and return the header, the state with the header,
and the block resolved for `h` when it is not. -/
theorem non_canonical_hash (b : LesApiBackend) (h : CommonHash) (H : Header)
    (hH : b.getHeaderByHash h = some H) (hcanon : b.getCanonicalHash H.NumberUint64 ≠ h) :
    (b.HeaderByNumberOrHash (hashRef h true)).result =
      (none, some (Error.New "hash is not currently canonical")) ∧
    (b.StateAndHeaderByNumberOrHash (hashRef h true)).result =
      (none, none, some (Error.New "hash is not currently canonical")) ∧
    (b.HeaderByNumberOrHash (hashRef h false)).result = (some H, none) ∧
    (b.StateAndHeaderByNumberOrHash (hashRef h false)).result = (some ⟨H⟩, some H, none) ∧
    (∀ blk, b.getBlockByHash h = (some blk, none) → b.getCanonicalHash blk.NumberU64 ≠ h →
      (b.BlockByNumberOrHash (hashRef h true)).result =
        (none, some (Error.New "hash is not currently canonical")) ∧
      (b.BlockByNumberOrHash (hashRef h false)).result = (some blk, none)) := by
  refine ⟨?_, ?_, ?_, ?_, ?_⟩
  · rw [HeaderByNumberOrHash_hash]; simp [hH, hcanon, errNotCanonical]
  · rw [StateAndHeaderByNumberOrHash_hash]; simp [hH, hcanon, errNotCanonical]
  · rw [HeaderByNumberOrHash_hash]; simp [hH]
  · rw [StateAndHeaderByNumberOrHash_hash]; simp [hH]
  · intro blk hblk hc
    constructor
    · rw [BlockByNumberOrHash_hash]; simp [hblk, hc, errNotCanonical]
    · rw [BlockByNumberOrHash_hash]; simp [hblk]

/-- Witness for C4 on the concrete chain: the fork block 202 sits at height 2,
whose canonical hash is 102. -/
theorem non_canonical_hash_witness :
    sampleBackend.getHeaderByHash 202 = some forkHeader ∧
    sampleBackend.getCanonicalHash forkHeader.NumberUint64 ≠ 202 ∧
    (sampleBackend.HeaderByNumberOrHash (hashRef 202 true)).result =
      (none, some (Error.New "hash is not currently canonical")) ∧
    (sampleBackend.BlockByNumberOrHash (hashRef 202 false)).result =
      (some ⟨forkHeader, 0⟩, none) :=
  ⟨by decide, by decide,
    (non_canonical_hash sampleBackend 202 forkHeader (by decide) (by decide)).1,
    ((non_canonical_hash sampleBackend 202 forkHeader (by decide) (by decide)).2.2.2.2
      ⟨forkHeader, 0⟩ (by decide) (by decide)).2⟩

/-- C7 as stated fails: for the unknown hash 555 the chain has no header, yet
`BlockByNumberOrHash` fails with the block lookup's own error, not with
"header for hash not found". -/
theorem block_by_hash_not_found_counterexample :
    sampleBackend.getHeaderByHash 555 = none ∧
    (sampleBackend.BlockByNumberOrHash (hashRef 555 false)).result =
      (none, some (Error.New "unknown block")) ∧
    (sampleBackend.BlockByNumberOrHash (hashRef 555 false)).result ≠
      (none, some (Error.New "header for hash not found")) := by
  decide

/-- C7 amended: for a hash-only reference to `h`, `HeaderByNumberOrHash` and
`StateAndHeaderByNumberOrHash` fail with "header for hash not found" when the
chain has no header for `h`; `BlockByNumberOrHash` never looks the header up:
it returns the error of the block lookup unchanged when there is one, and fails
with "header found, but block body is missing", a different error, when the
block lookup returns neither a block nor an error. -/
theorem hash_resolution_errors (b : LesApiBackend) (h : CommonHash) (req : Bool) :
    (b.getHeaderByHash h = none →
      (b.HeaderByNumberOrHash (hashRef h req)).result =
        (none, some (Error.New "header for hash not found")) ∧
      (b.StateAndHeaderByNumberOrHash (hashRef h req)).result =
        (none, none, some (Error.New "header for hash not found"))) ∧
    (b.getBlockByHash h = (none, none) →
      (b.BlockByNumberOrHash (hashRef h req)).result =
        (none, some (Error.New "header found, but block body is missing"))) ∧
    (∀ blk e, b.getBlockByHash h = (blk, some e) →
      (b.BlockByNumberOrHash (hashRef h req)).result = (none, some e)) ∧
    (∀ k, Call.GetHeaderByHash k ∉ (b.BlockByNumberOrHash (hashRef h req)).calls) ∧
    Error.New "header found, but block body is missing" ≠
      Error.New "header for hash not found" := by
  refine ⟨?_, ?_, ?_, ?_, by decide⟩
  · intro hH
    constructor
    · rw [HeaderByNumberOrHash_hash]; simp [hH, errHeaderNotFound]
    · rw [StateAndHeaderByNumberOrHash_hash]; simp [hH, errHeaderNotFound]
  · intro hB
    rw [BlockByNumberOrHash_hash]; simp [hB, errBodyMissing]
  · intro blk e hB
    rw [BlockByNumberOrHash_hash]; simp [hB]
  · intro k
    rw [BlockByNumberOrHash_hash]
    rcases hB : b.getBlockByHash h with ⟨blk, err⟩
    cases err with
    | some e => simp
    | none =>
      cases blk with
      | none => simp
      | some blk =>
        cases req <;> by_cases hc : b.getCanonicalHash blk.NumberU64 = h <;> simp [hc]

/-- Witness for C7 amended on the concrete chain: hash 555 has no header, the
body of block 102 is absent, and the block lookup of 555 fails on its own. -/
theorem hash_resolution_errors_witness :
    sampleBackend.getHeaderByHash 555 = none ∧
    (sampleBackend.HeaderByNumberOrHash (hashRef 555 false)).result =
      (none, some (Error.New "header for hash not found")) ∧
    sampleBackend.getBlockByHash 102 = (none, none) ∧
    (sampleBackend.BlockByNumberOrHash (hashRef 102 false)).result =
      (none, some (Error.New "header found, but block body is missing")) ∧
    sampleBackend.getBlockByHash 555 = (none, some (Error.New "unknown block")) ∧
    (sampleBackend.BlockByNumberOrHash (hashRef 555 true)).result =
      (none, some (Error.New "unknown block")) :=
  ⟨by decide, ((hash_resolution_errors sampleBackend 555 false).1 (by decide)).1,
    by decide, (hash_resolution_errors sampleBackend 102 false).2.1 (by decide),
    by decide, (hash_resolution_errors sampleBackend 555 true).2.2.1 none _ (by decide)⟩

/-- C8 as stated fails: for the unknown hash 555 `HeaderByHash` returns without
error, and the header it returns is nil. -/
theorem header_by_hash_nil_counterexample :
    sampleBackend.getHeaderByHash 555 = none ∧
    (sampleBackend.HeaderByHash 555).result = (none, none) := by
  decide

/-- C8 amended: `HeaderByHash` never fails, it returns the chain's by-hash
lookup (nil when there is no header) with a nil error; `HeaderByNumberOrHash`
on a hash-only reference returns, when it returns without error, a non-nil
header, the one the chain records for the hash, whose hash is the requested one
when the chain's by-hash lookup only returns headers with the requested hash;
and on any reference `HeaderByNumber` and `HeaderByNumberOrHash` return a
non-nil header without error provided the chain has a current header and the
retrieval by number returns a header whenever it returns no error. -/
theorem resolver_result_guarantee (b : LesApiBackend) (h : CommonHash) (req : Bool)
    (hd : Option Header) (ref : BlockNumberOrHash) (number : Int) :
    b.HeaderByHash h = ⟨(b.getHeaderByHash h, none), [Call.GetHeaderByHash h]⟩ ∧
    ((b.HeaderByNumberOrHash (hashRef h req)).result = (hd, none) →
      ∃ H, hd = some H ∧ b.getHeaderByHash h = some H ∧
        ((∀ k K, b.getHeaderByHash k = some K → K.Hash = k) → H.Hash = h)) ∧
    (b.currentHeader ≠ none →
      (∀ n hd2, b.getHeaderByNumberOdr n = (hd2, none) → hd2 ≠ none) →
      ((b.HeaderByNumber number).result = (hd, none) → hd ≠ none) ∧
      ((b.HeaderByNumberOrHash ref).result = (hd, none) → hd ≠ none)) := by
  refine ⟨?_, ?_, ?_⟩
  · simp [HeaderByHash, GetHeaderByHash, bind_eq, pure_eq]
  · rw [HeaderByNumberOrHash_hash]
    cases hp : b.getHeaderByHash h with
    | none => simp
    | some H =>
      cases req <;> by_cases hc : b.getCanonicalHash H.NumberUint64 = h <;>
        simp [hc] <;> intro hhd <;> exact ⟨H, hhd.symm, rfl, fun hk => hk h H hp⟩
  · intro hcur hodr
    have hnum : ∀ n : Int, (b.HeaderByNumber n).result = (hd, none) → hd ≠ none := by
      intro n
      rw [HeaderByNumber_eq]
      split
      · intro hres
        have : b.currentHeader = hd := by simpa using hres
        exact this ▸ hcur
      · intro hres
        exact hodr _ hd hres
    refine ⟨hnum number, ?_⟩
    rcases ref with ⟨num, hash, rc⟩
    cases num with
    | some n => simpa [HeaderByNumberOrHash, BlockNumberOrHash.getNumber] using hnum n
    | none =>
      cases hash with
      | none =>
        simp [HeaderByNumberOrHash, BlockNumberOrHash.getNumber, BlockNumberOrHash.getHash,
          pure_eq]
      | some k =>
        have key := b.HeaderByNumberOrHash_hash k rc
        simp only [hashRef] at key
        rw [key]
        cases hp : b.getHeaderByHash k with
        | none => simp
        | some K =>
          cases rc <;> by_cases hc : b.getCanonicalHash K.NumberUint64 = k <;>
            simp [hc] <;> intro hhd <;> simp [← hhd]

/-- Witness for C8 amended on the concrete chain: hash 101 resolves to block 1,
the sample chain's by-hash lookup is hash-consistent, it has a current header
and its retrieval by number returns a header whenever it returns no error. -/
theorem resolver_result_guarantee_witness :
    (sampleBackend.HeaderByNumberOrHash (hashRef 101 true)).result = (some header1, none) ∧
    (∃ H, some header1 = some H ∧ sampleBackend.getHeaderByHash 101 = some H ∧
      ((∀ k K, sampleBackend.getHeaderByHash k = some K → K.Hash = k) → H.Hash = 101)) ∧
    sampleBackend.currentHeader ≠ none ∧
    ((sampleBackend.HeaderByNumberOrHash (numberRef 1)).result = (some header1, none) →
      some header1 ≠ none) :=
  ⟨by decide,
    (resolver_result_guarantee sampleBackend 101 true (some header1) (numberRef 1) 1).2.1
      (by decide),
    by decide,
    ((resolver_result_guarantee sampleBackend 101 true (some header1) (numberRef 1) 1).2.2
      (by decide)
      (by
        intro n hd2 hn
        simp only [sampleBackend] at hn
        split_ifs at hn <;> simp_all <;> (subst hn; simp))).2⟩

/-! ## State materializer -/

/-- C10: on every reference `StateAndHeaderByNumberOrHash` returns a nil error
exactly when `HeaderByNumberOrHash` returns a non-nil header with a nil error;
it then returns that header with the state view built for it, after the calls
of the header resolution followed by the construction of that state; and when
it returns an error, both the state and the header it returns are nil. -/
theorem state_and_header_composition (b : LesApiBackend) (ref : BlockNumberOrHash) :
    ((b.StateAndHeaderByNumberOrHash ref).result.2.2 = none ↔
      ∃ H, (b.HeaderByNumberOrHash ref).result = (some H, none)) ∧
    (∀ H, (b.HeaderByNumberOrHash ref).result = (some H, none) →
      b.StateAndHeaderByNumberOrHash ref =
        ⟨(some ⟨H⟩, some H, none), (b.HeaderByNumberOrHash ref).calls ++ [Call.NewState H]⟩) ∧
    ((b.StateAndHeaderByNumberOrHash ref).result.2.2 ≠ none →
      (b.StateAndHeaderByNumberOrHash ref).result.1 = none ∧
      (b.StateAndHeaderByNumberOrHash ref).result.2.1 = none) := by
  rcases ref with ⟨num, hash, req⟩
  cases num with
  | some n =>
    rcases hn : (b.HeaderByNumber n).result with ⟨hd, err⟩
    cases err with
    | some e =>
      simp [StateAndHeaderByNumberOrHash, StateAndHeaderByNumber, HeaderByNumberOrHash,
        BlockNumberOrHash.getNumber, bind_eq, pure_eq, hn]
    | none =>
      cases hd with
      | none =>
        simp [StateAndHeaderByNumberOrHash, StateAndHeaderByNumber, HeaderByNumberOrHash,
          BlockNumberOrHash.getNumber, bind_eq, pure_eq, hn]
      | some H =>
        simp [StateAndHeaderByNumberOrHash, StateAndHeaderByNumber, HeaderByNumberOrHash,
          BlockNumberOrHash.getNumber, bind_eq, pure_eq, hn, NewState]
  | none =>
    cases hash with
    | none =>
      simp [StateAndHeaderByNumberOrHash, HeaderByNumberOrHash, BlockNumberOrHash.getNumber,
        BlockNumberOrHash.getHash, pure_eq]
    | some h =>
      have k1 := b.HeaderByNumberOrHash_hash h req
      have k2 := b.StateAndHeaderByNumberOrHash_hash h req
      simp only [hashRef] at k1 k2
      rw [k1, k2]
      cases hp : b.getHeaderByHash h with
      | none => simp
      | some H =>
        cases req <;> by_cases hc : b.getCanonicalHash H.NumberUint64 = h <;> simp [hc]

/-- Witness for C10 on the concrete chain: reference number 2 resolves to the
header of block 2, and the state returned is the one built for that header. -/
theorem state_and_header_composition_witness :
    (sampleBackend.HeaderByNumberOrHash (numberRef 2)).result = (some header2, none) ∧
    sampleBackend.StateAndHeaderByNumberOrHash (numberRef 2) =
      ⟨(some ⟨header2⟩, some header2, none),
        (sampleBackend.HeaderByNumberOrHash (numberRef 2)).calls ++ [Call.NewState header2]⟩ :=
  ⟨by decide,
    (state_and_header_composition sampleBackend (numberRef 2)).2.1 header2 (by decide)⟩

/-! ## Protocol parameter evaluator: error policies -/

/-- C5 as stated fails: the header with hash 109 has `GasLimit = 0` and a parent
the chain does not know, so the parent-state lookup fails; the error returned
wraps that failure under the state-stage format, and no piece of its text
contains "state lookup failed". -/
theorem real_gas_limit_state_error_counterexample :
    (sampleBackend.HeaderByNumberOrHash (hashRef 109 false)).result =
      (some orphanHeader, none) ∧
    orphanHeader.GasLimit = 0 ∧
    (sampleBackend.StateAndHeaderByNumberOrHash
      (BlockNumberOrHash.ofHash orphanHeader.ParentHash)).result =
      (none, none, some (Error.New "header for hash not found")) ∧
    (sampleBackend.GetRealBlockGasLimit (hashRef 109 false)).result =
      some (0, some (Error.Errorf
        "LesApiBackend failed to retrieve state for block gas limit for block %v: %w"
        (hashRef 109 false) (Error.New "header for hash not found"))) ∧
    (Error.Errorf
        "LesApiBackend failed to retrieve state for block gas limit for block %v: %w"
        (hashRef 109 false) (Error.New "header for hash not found")).mentions
      "state lookup failed" = false := by
  decide

/-- C5 amended: `GetRealBlockGasLimit` returns an error exactly when the header
resolution fails, or the resolved header has `GasLimit = 0` and the
parent-state lookup fails or the gas-limit contract read fails; the value
returned with an error is 0, never a default; the error is `fmt.Errorf` of a
format proper to the failing stage, of the reference and of the underlying
error, which it wraps; the three formats are pairwise distinct, and the one of
the state stage reads "failed to retrieve state". -/
theorem real_gas_limit_errors (b : LesApiBackend) (ref : BlockNumberOrHash) (v : Nat)
    (e : Error) :
    ((b.GetRealBlockGasLimit ref).result = some (v, some e) ↔
      v = 0 ∧
      ((∃ hd e0, (b.HeaderByNumberOrHash ref).result = (hd, some e0) ∧
          e = Error.Errorf headerStageFormat ref e0 ∧ e.Unwrap = some e0) ∨
       (∃ H e0, (b.HeaderByNumberOrHash ref).result = (some H, none) ∧ H.GasLimit = 0 ∧
          (b.StateAndHeaderByNumberOrHash (BlockNumberOrHash.ofHash H.ParentHash)).result.2.2 =
            some e0 ∧
          e = Error.Errorf stateStageFormat ref e0 ∧ e.Unwrap = some e0) ∨
       (∃ H st p lim e0, (b.HeaderByNumberOrHash ref).result = (some H, none) ∧
          H.GasLimit = 0 ∧
          (b.StateAndHeaderByNumberOrHash (BlockNumberOrHash.ofHash H.ParentHash)).result =
            (some st, some p, none) ∧
          b.getBlockGasLimit ⟨p, st⟩ = (lim, some e0) ∧
          e = Error.Errorf contractStageFormat ref e0 ∧ e.Unwrap = some e0))) ∧
    headerStageFormat ≠ stateStageFormat ∧ headerStageFormat ≠ contractStageFormat ∧
    stateStageFormat ≠ contractStageFormat ∧
    occursIn "failed to retrieve state".data stateStageFormat.data = true := by
  refine ⟨?_, by decide, by decide, by decide, by decide⟩
  rcases hh : (b.HeaderByNumberOrHash ref).result with ⟨hd, err⟩
  cases err with
  | some e0 =>
    have hr : (b.GetRealBlockGasLimit ref).result =
        some (0, some (Error.Errorf headerStageFormat ref e0)) := by
      simp [GetRealBlockGasLimit, bind_eq, pure_eq, hh]
    rw [hr]
    constructor
    · intro h
      simp only [Option.some.injEq, Prod.mk.injEq] at h
      obtain ⟨hv, he⟩ := h
      subst hv he
      exact ⟨rfl, Or.inl ⟨hd, e0, rfl, rfl, rfl⟩⟩
    · rintro ⟨hv, h | h | h⟩
      · obtain ⟨hd2, e1, h1, h2, -⟩ := h
        simp only [Prod.mk.injEq, Option.some.injEq] at h1
        rw [hv, h2, h1.2]
      · obtain ⟨H, e1, h1, -⟩ := h
        simp at h1
      · obtain ⟨H, st, p, lim, e1, h1, -⟩ := h
        simp at h1
  | none =>
    cases hd with
    | none =>
      have hr : (b.GetRealBlockGasLimit ref).result = none := by
        simp [GetRealBlockGasLimit, bind_eq, pure_eq, hh]
      rw [hr]
      constructor
      · intro h; cases h
      · rintro ⟨-, h | h | h⟩
        · obtain ⟨hd2, e1, h1, -⟩ := h
          simp at h1
        · obtain ⟨H, e1, h1, -⟩ := h
          simp at h1
        · obtain ⟨H, st, p, lim, e1, h1, -⟩ := h
          simp at h1
    | some H =>
      by_cases hgas : 0 < H.GasLimit
      · rw [b.GetRealBlockGasLimit_fast ref H hh hgas]
        constructor
        · intro h; simp at h
        · rintro ⟨-, h | h | h⟩
          · obtain ⟨hd2, e1, h1, -⟩ := h
            simp at h1
          · obtain ⟨H2, e1, h1, h2, -⟩ := h
            simp only [Prod.mk.injEq, Option.some.injEq, and_true] at h1
            subst h1; omega
          · obtain ⟨H2, st, p, lim, e1, h1, h2, -⟩ := h
            simp only [Prod.mk.injEq, Option.some.injEq, and_true] at h1
            subst h1; omega
      · have hz : H.GasLimit = 0 := by omega
        have hslow := b.GetRealBlockGasLimit_slow ref H hh hz
        cases hp : b.getHeaderByHash H.ParentHash with
        | none =>
          have hr : (b.GetRealBlockGasLimit ref).result =
              some (0, some (Error.Errorf stateStageFormat ref errHeaderNotFound)) := by
            rw [hslow, hp]
          rw [hr]
          constructor
          · intro h
            simp only [Option.some.injEq, Prod.mk.injEq] at h
            obtain ⟨hv, he⟩ := h
            subst hv he
            refine ⟨rfl, Or.inr (Or.inl ⟨H, errHeaderNotFound, rfl, hz, ?_, rfl, rfl⟩)⟩
            rw [StateAndHeaderByNumberOrHash_parent, hp]
          · rintro ⟨hv, h | h | h⟩
            · obtain ⟨hd2, e1, h1, -⟩ := h
              simp at h1
            · obtain ⟨H2, e1, h1, -, h3, h4, -⟩ := h
              simp only [Prod.mk.injEq, Option.some.injEq, and_true] at h1
              subst h1
              rw [StateAndHeaderByNumberOrHash_parent, hp] at h3
              simp only [Option.some.injEq] at h3
              rw [hv, h4, ← h3]
            · obtain ⟨H2, st, p, lim, e1, h1, -, h3, -⟩ := h
              simp only [Prod.mk.injEq, Option.some.injEq, and_true] at h1
              subst h1
              rw [StateAndHeaderByNumberOrHash_parent, hp] at h3
              simp at h3
        | some p =>
          have hst : (b.StateAndHeaderByNumberOrHash
              (BlockNumberOrHash.ofHash H.ParentHash)).result = (some ⟨p⟩, some p, none) := by
            rw [StateAndHeaderByNumberOrHash_parent, hp]
          rcases hl : b.getBlockGasLimit ⟨p, ⟨p⟩⟩ with ⟨lim, err⟩
          cases err with
          | none =>
            have hr : (b.GetRealBlockGasLimit ref).result = some (lim, none) := by
              rw [hslow, hp]; simp [hl]
            rw [hr]
            constructor
            · intro h; simp at h
            · rintro ⟨-, h | h | h⟩
              · obtain ⟨hd2, e1, h1, -⟩ := h
                simp at h1
              · obtain ⟨H2, e1, h1, -, h3, -⟩ := h
                simp only [Prod.mk.injEq, Option.some.injEq, and_true] at h1
                subst h1
                rw [hst] at h3
                simp at h3
              · obtain ⟨H2, st, p2, lim2, e1, h1, -, h3, h4, -⟩ := h
                simp only [Prod.mk.injEq, Option.some.injEq, and_true] at h1
                subst h1
                rw [hst] at h3
                simp only [Prod.mk.injEq, Option.some.injEq, and_true] at h3
                obtain ⟨h3a, h3b⟩ := h3
                subst h3a h3b
                rw [hl] at h4
                simp at h4
          | some e0 =>
            have hr : (b.GetRealBlockGasLimit ref).result =
                some (0, some (Error.Errorf contractStageFormat ref e0)) := by
              rw [hslow, hp]; simp [hl]
            rw [hr]
            constructor
            · intro h
              simp only [Option.some.injEq, Prod.mk.injEq] at h
              obtain ⟨hv, he⟩ := h
              subst hv he
              exact ⟨rfl, Or.inr (Or.inr ⟨H, ⟨p⟩, p, lim, e0, rfl, hz, hst, hl, rfl, rfl⟩)⟩
            · rintro ⟨hv, h | h | h⟩
              · obtain ⟨hd2, e1, h1, -⟩ := h
                simp at h1
              · obtain ⟨H2, e1, h1, -, h3, -⟩ := h
                simp only [Prod.mk.injEq, Option.some.injEq, and_true] at h1
                subst h1
                rw [hst] at h3
                simp at h3
              · obtain ⟨H2, st, p2, lim2, e1, h1, -, h3, h4, h5, -⟩ := h
                simp only [Prod.mk.injEq, Option.some.injEq, and_true] at h1
                subst h1
                rw [hst] at h3
                simp only [Prod.mk.injEq, Option.some.injEq, and_true] at h3
                obtain ⟨h3a, h3b⟩ := h3
                subst h3a h3b
                rw [hl] at h4
                simp only [Prod.mk.injEq, Option.some.injEq] at h4
                rw [hv, h5, ← h4.2]

/-- C6: the code fails the claim at reference number 5 when the retrieval by
number answers with neither a header nor an error.  `HeaderByNumberOrHash`
returns a nil header with a nil error, and `GetBlockGasLimit` (like
`GetRealBlockGasLimit`) reads `header.GasLimit` on it instead of returning a
value, whereas on the same input `StateAndHeaderByNumberOrHash` answers
"header not found" and `BlockByNumberOrHash` answers nil: both guard the nil
header. -/
theorem block_gas_limit_nil_header_failure :
    silentBackend.getHeaderByNumberOdr 5 = (none, none) ∧
    (silentBackend.HeaderByNumberOrHash (numberRef 5)).result = (none, none) ∧
    (silentBackend.GetBlockGasLimit (numberRef 5)).result = none ∧
    (silentBackend.GetRealBlockGasLimit (numberRef 5)).result = none ∧
    (silentBackend.StateAndHeaderByNumberOrHash (numberRef 5)).result =
      (none, none, some (Error.New "header not found")) ∧
    (silentBackend.BlockByNumberOrHash (numberRef 5)).result = (none, none) := by
  decide

/-- Away from a nil header returned with a nil error (which no hash-only
reference can produce), `GetBlockGasLimit` returns a value; that value is
`params.DefaultGasLimit` whenever the header resolution fails, and whenever the
resolved header has `GasLimit = 0` and the parent-state lookup fails; each of
these two failures is logged. -/
theorem block_gas_limit_total (b : LesApiBackend) (ref : BlockNumberOrHash)
    (hnil : (b.HeaderByNumberOrHash ref).result ≠ (none, none)) :
    (∃ v, (b.GetBlockGasLimit ref).result = some v) ∧
    (∀ hd e, (b.HeaderByNumberOrHash ref).result = (hd, some e) →
      (b.GetBlockGasLimit ref).result = some b.DefaultGasLimit ∧
      Call.Warn "Cannot retrieve the header for blockGasLimit" e ∈
        (b.GetBlockGasLimit ref).calls) ∧
    (∀ H e, (b.HeaderByNumberOrHash ref).result = (some H, none) → H.GasLimit = 0 →
      (b.StateAndHeaderByNumberOrHash (BlockNumberOrHash.ofHash H.ParentHash)).result.2.2 =
        some e →
      (b.GetBlockGasLimit ref).result = some b.DefaultGasLimit ∧
      Call.Warn "Cannot create evmCaller to get blockGasLimit" e ∈
        (b.GetBlockGasLimit ref).calls) ∧
    (∀ h req, (b.HeaderByNumberOrHash (hashRef h req)).result ≠ (none, none)) := by
  have herr : ∀ hd e, (b.HeaderByNumberOrHash ref).result = (hd, some e) →
      (b.GetBlockGasLimit ref).result = some b.DefaultGasLimit ∧
      Call.Warn "Cannot retrieve the header for blockGasLimit" e ∈
        (b.GetBlockGasLimit ref).calls := by
    intro hd e hh
    simp [GetBlockGasLimit, bind_eq, pure_eq, hh, Warn]
  have hstate : ∀ H e, (b.HeaderByNumberOrHash ref).result = (some H, none) →
      H.GasLimit = 0 →
      (b.StateAndHeaderByNumberOrHash (BlockNumberOrHash.ofHash H.ParentHash)).result.2.2 =
        some e →
      (b.GetBlockGasLimit ref).result = some b.DefaultGasLimit ∧
      Call.Warn "Cannot create evmCaller to get blockGasLimit" e ∈
        (b.GetBlockGasLimit ref).calls := by
    intro H e hh hz hs
    rw [StateAndHeaderByNumberOrHash_parent] at hs
    rw [b.GetBlockGasLimit_slow ref H hh hz]
    cases hp : b.getHeaderByHash H.ParentHash with
    | none =>
      rw [hp] at hs
      simp only [Option.some.injEq] at hs
      subst hs
      simp
    | some p =>
      rw [hp] at hs
      simp at hs
  refine ⟨?_, herr, hstate, ?_⟩
  · rcases hh : (b.HeaderByNumberOrHash ref).result with ⟨hd, err⟩
    cases err with
    | some e => exact ⟨_, (herr hd e hh).1⟩
    | none =>
      cases hd with
      | none => exact absurd hh hnil
      | some H =>
        by_cases hgas : 0 < H.GasLimit
        · exact ⟨_, by rw [b.GetBlockGasLimit_fast ref H hh hgas]⟩
        · have hz : H.GasLimit = 0 := by omega
          rw [b.GetBlockGasLimit_slow ref H hh hz]
          cases b.getHeaderByHash H.ParentHash <;> simp
  · intro h req
    rw [HeaderByNumberOrHash_hash]
    cases hp : b.getHeaderByHash h with
    | none => simp
    | some H =>
      cases req <;> by_cases hc : b.getCanonicalHash H.NumberUint64 = h <;> simp [hc]

/-- On the concrete chain the totality result applies: the header with hash 109 has
`GasLimit = 0` and an unknown parent, and the default gas limit is returned. -/
theorem block_gas_limit_total_witness :
    (sampleBackend.HeaderByNumberOrHash (hashRef 109 false)).result ≠ (none, none) ∧
    (sampleBackend.HeaderByNumberOrHash (hashRef 109 false)).result =
      (some orphanHeader, none) ∧
    orphanHeader.GasLimit = 0 ∧
    (sampleBackend.StateAndHeaderByNumberOrHash
      (BlockNumberOrHash.ofHash orphanHeader.ParentHash)).result.2.2 =
      some (Error.New "header for hash not found") ∧
    (sampleBackend.GetBlockGasLimit (hashRef 109 false)).result = some 20000000 :=
  ⟨by decide, by decide, by decide, by decide,
    ((block_gas_limit_total sampleBackend (hashRef 109 false) (by decide)).2.2.1
      orphanHeader (Error.New "header for hash not found") (by decide) (by decide)
      (by decide)).1⟩

end LesApiBackend

end Les
